import Mathlib

/-!
Formal model of the ETL pipeline of `bloc1_analyse_donnees/etl_pipeline.py`
(fraud-detection coursework repository).

DataFrames are modelled as Lean lists of record structures; nullable columns
(pandas `NaN`) are `Option` fields; monetary amounts and coordinates are
rationals.  Pandas / standard-library primitives used by the pipeline
(`median`, `mode`, `fillna`, `drop_duplicates`, `merge`, `groupby`,
`to_datetime`) are embedded as executable Lean functions with the same
observable behaviour on these models:
* `Series.median` skips missing values, averages the two middle elements for
  an even count, and is `None` (NaN) on an all-missing column;
* `Series.fillna v` leaves a missing entry missing when `v` itself is the
  missing value (filling with NaN is a no-op);
* `Series.mode` drops missing values and returns the most frequent values
  sorted in ascending order;
* `drop_duplicates(keep='first')` keeps the first occurrence;
* `pd.to_datetime` parses a raw string column into a canonical temporal type
  and is the identity on an already-converted column.  Its concrete parsing
  arithmetic is irrelevant to every property proved here, so the parse is a
  fixed deterministic encoding of the string.
-/

/-- `Series.fillna`: replace a missing entry by the fill value; when the fill
value is itself missing (NaN) the entry stays missing. -/
def fillna {α : Type} (v : Option α) (m : Option α) : Option α :=
  match v with
  | some a => some a
  | none => m

/-- Insert into a sorted list (ascending, by a Boolean order). -/
def insSorted {α : Type} (le : α → α → Bool) (a : α) : List α → List α
  | [] => [a]
  | b :: l => if le a b then a :: b :: l else b :: insSorted le a l

/-- Insertion sort (ascending). Models the sorting done inside pandas
`median` and `mode`. -/
def sortedBy {α : Type} (le : α → α → Bool) : List α → List α
  | [] => []
  | a :: l => insSorted le a (sortedBy le l)

/-- `Series.median` over the non-missing values: sort ascending; odd length
takes the middle element, even length the mean of the two middle elements;
empty input (all-missing column) gives `none` (NaN). -/
def mediane (xs : List ℚ) : Option ℚ :=
  let s := sortedBy (fun a b => decide (a ≤ b)) xs
  let n := s.length
  if n = 0 then none
  else if n % 2 = 1 then s[n / 2]?
  else do
    let a ← s[n / 2 - 1]?
    let b ← s[n / 2]?
    pure ((a + b) / 2)

/-- Worker for `drop_duplicates(keep='first')`: keep an element only when its
key has not been seen before. -/
def dropDupGo {α β : Type} (key : α → β) [DecidableEq β] (seen : List β) :
    List α → List α
  | [] => []
  | x :: xs =>
    if key x ∈ seen then dropDupGo key seen xs
    else x :: dropDupGo key (key x :: seen) xs

/-- `DataFrame.drop_duplicates(subset=[...], keep='first')`: keep the first
row for each key value. -/
def dropDuplicatesBy {α β : Type} (key : α → β) [DecidableEq β]
    (l : List α) : List α :=
  dropDupGo key [] l

/-- Distinct values of a list in first-encountered order
(`Series.unique`). -/
def uniqueVals {α : Type} [DecidableEq α] (l : List α) : List α :=
  dropDuplicatesBy (fun a => a) l

/-- Lexicographic code-point comparison of character lists: the order Python
uses to compare strings (and hence the order in which pandas sorts the string
values returned by `mode` and the string group keys of `groupby`). -/
def chListLeb : List Char → List Char → Bool
  | [], _ => true
  | _ :: _, [] => false
  | c :: cs, d :: ds =>
    if c.toNat < d.toNat then true
    else if d.toNat < c.toNat then false
    else chListLeb cs ds

/-- Lexicographic code-point comparison of strings. -/
def strLeb (a b : String) : Bool := chListLeb a.data b.data

/-- `Series.mode` on a nullable string column: drop the missing values, then
return the values of maximal frequency sorted in ascending (lexicographic)
order. -/
def pandasMode (xs : List (Option String)) : List String :=
  let vals := xs.filterMap (fun o => o)
  let uniq := uniqueVals vals
  let maxc := (uniq.map (fun v => vals.count v)).foldr max 0
  sortedBy strLeb (uniq.filter (fun v => vals.count v = maxc))

/-- The fill value used for `merchant_category`
(`mode()[0] if not mode().empty else 'AUTRE'`, etl_pipeline.py line 279). -/
def mode_tx (xs : List (Option String)) : String :=
  match pandasMode xs with
  | [] => "AUTRE"
  | c :: _ => c

/-- The spec's reading of mode imputation: the most frequent non-missing
value with ties broken by first-encountered order in the column.  Stated from
the specification text for comparison with the source's `mode_tx`. -/
def mode_first_encountered_spec (xs : List (Option String)) : Option String :=
  let vals := xs.filterMap (fun o => o)
  let uniq := dropDuplicatesBy (fun a => a) vals
  let maxc := (uniq.map (fun v => vals.count v)).foldr max 0
  (uniq.filter (fun v => vals.count v = maxc)).head?

/-- A timestamp column value: either the raw string read from the source
artifact or the canonical temporal value produced by `pd.to_datetime`. -/
inductive TimeVal : Type
  | raw (s : String)
  | ts (t : Int)
deriving Repr, DecidableEq

/-- Fixed deterministic encoding of a raw timestamp string; stands for the
datetime value `pd.to_datetime` parses out of the string (the numeric details
never matter for the verified properties). -/
def parse_datetime (s : String) : Int :=
  Int.ofNat (s.data.foldl (fun a c => a * 256 + c.toNat) 0)

/-- `pd.to_datetime` on one column entry: parses a raw string, and is the
identity on an already-converted value. -/
def to_datetime : TimeVal → TimeVal
  | .raw s => .ts (parse_datetime s)
  | .ts t => .ts t

/-- Number of missing entries of one column (`df[col].isna().sum()`). -/
def missingCount {α β : Type} (proj : α → Option β) (df : List α) : Nat :=
  (df.filter (fun r => (proj r).isNone)).length

/-- One row of `transactions.csv` (generator lines 71-90). -/
structure TransactionRow : Type where
  transaction_id : String
  client_id : String
  montant : Option ℚ
  devise : String
  date_heure : TimeVal
  type_transaction : String
  type_carte : String
  merchant_id : String
  merchant_category : Option String
  pays : String
  ville : Option String
  latitude : Option ℚ
  longitude : Option ℚ
  canal : String
  is_fraud : Bool
deriving Repr, DecidableEq

/-- One row of `clients.xlsx` (generator lines 108-123). -/
structure ClientRow : Type where
  client_id : String
  age : Nat
  sexe : String
  code_postal : String
  anciennete_mois : Nat
  nb_produits : Nat
  revenu_annuel_tranche : String
  score_credit : Option ℚ
  date_derniere_fraude : Option String
deriving Repr, DecidableEq

/-- One record of `logs_comportement.json` (generator lines 135-151). -/
structure LogRow : Type where
  session_id : String
  client_id : String
  timestamp : TimeVal
  action : String
  device_type : String
  os : String
  browser : String
  ip_address : String
  duree_session_sec : ℚ
deriving Repr, DecidableEq

/-- The three extracted sources (`self.data_sources`). -/
structure Sources : Type where
  transactions : List TransactionRow
  clients : List ClientRow
  logs : List LogRow
deriving Repr, DecidableEq

/-- Quality report of `analyser_qualite_donnees` for a transaction-shaped
table (etl_pipeline.py lines 197-239): row and column counts, per-column
missing counts (only columns with at least one missing value are listed),
exact duplicate-row count, and the three anomaly counters.  Note that the
source computes `coordonnees_invalides` from the latitude column alone. -/
structure QualityStats : Type where
  nb_lignes : Nat
  nb_colonnes : Nat
  valeurs_manquantes : List (String × Nat)
  doublons : Nat
  montants_negatifs : Nat
  montants_extremes : Nat
  coordonnees_invalides : Nat
deriving Repr, DecidableEq

/-- `analyser_qualite_donnees` applied to the transaction table.  A pandas
comparison with NaN is false, so rows with a missing value in the examined
column are never counted as anomalous. -/
def analyser_qualite_transactions (df : List TransactionRow) : QualityStats :=
  { nb_lignes := df.length
    nb_colonnes := 15
    valeurs_manquantes :=
      ([("montant", missingCount (fun r => r.montant) df),
        ("merchant_category", missingCount (fun r => r.merchant_category) df),
        ("ville", missingCount (fun r => r.ville) df),
        ("latitude", missingCount (fun r => r.latitude) df),
        ("longitude", missingCount (fun r => r.longitude) df)].filter
          (fun p => 0 < p.2))
    doublons := df.length - (dropDuplicatesBy (fun r => r) df).length
    montants_negatifs :=
      (df.filter (fun r => match r.montant with
        | some m => decide (m < 0)
        | none => false)).length
    montants_extremes :=
      (df.filter (fun r => match r.montant with
        | some m => decide (10000 < m)
        | none => false)).length
    coordonnees_invalides :=
      (df.filter (fun r => match r.latitude with
        | some v => decide (v < -90) || decide (90 < v)
        | none => false)).length }

/-- The spec's reading of the invalid-coordinate anomaly count: a row counts
as invalid when its latitude is outside [-90, 90] or its longitude is outside
[-180, 180].  Stated from the specification text for comparison with the
source's `coordonnees_invalides`. -/
def coordonnees_invalides_spec (df : List TransactionRow) : Nat :=
  (df.filter (fun r =>
    (r.latitude.any (fun v => decide (v < -90) || decide (90 < v))) ||
    (r.longitude.any (fun v => decide (v < -180) || decide (180 < v))))).length

/-- Cleaner stage: impute missing latitude with the column median
(etl_pipeline.py line 266). -/
def fill_latitude (df : List TransactionRow) : List TransactionRow :=
  let m := mediane (df.filterMap (fun r => r.latitude))
  df.map (fun r => { r with latitude := fillna r.latitude m })

/-- Cleaner stage: impute missing longitude with the column median
(line 267). -/
def fill_longitude (df : List TransactionRow) : List TransactionRow :=
  let m := mediane (df.filterMap (fun r => r.longitude))
  df.map (fun r => { r with longitude := fillna r.longitude m })

/-- Cleaner stage: impute missing city with the fixed sentinel label
(line 273). -/
def fill_ville (df : List TransactionRow) : List TransactionRow :=
  df.map (fun r => { r with ville := fillna r.ville (some "VILLE_INCONNUE") })

/-- Cleaner stage: impute missing merchant category with the column mode,
falling back to `AUTRE` when the whole column is missing (lines 279-280). -/
def fill_merchant_category (df : List TransactionRow) : List TransactionRow :=
  let m := mode_tx (df.map (fun r => r.merchant_category))
  df.map (fun r => { r with merchant_category := fillna r.merchant_category (some m) })

/-- Cleaner stage: keep only rows whose amount compares `>= 0` (line 292);
a missing amount (NaN) fails the comparison and is dropped as well. -/
def filtre_montant (df : List TransactionRow) : List TransactionRow :=
  df.filter (fun r => match r.montant with
    | some m => decide (0 ≤ m)
    | none => false)

/-- Cleaner stage: convert the timestamp column (line 297). -/
def convert_date_heure (df : List TransactionRow) : List TransactionRow :=
  df.map (fun r => { r with date_heure := to_datetime r.date_heure })

/-- `nettoyer_donnees`, transaction part (etl_pipeline.py lines 252-298):
median-impute latitude and longitude, sentinel-impute city, mode-impute
merchant category, drop duplicate `transaction_id` rows keeping the first,
drop rows with negative amount, convert the timestamp. -/
def nettoyer_transactions (df : List TransactionRow) : List TransactionRow :=
  convert_date_heure
    (filtre_montant
      (dropDuplicatesBy (fun r => r.transaction_id)
        (fill_merchant_category (fill_ville (fill_longitude (fill_latitude df))))))

/-- `nettoyer_donnees`, client part (lines 311-328): median-impute the credit
score; the last-known-fraud date is deliberately left untouched. -/
def nettoyer_clients (df : List ClientRow) : List ClientRow :=
  let m := mediane (df.filterMap (fun r => r.score_credit))
  df.map (fun r => { r with score_credit := fillna r.score_credit m })

/-- Cleaner stage: convert the log timestamp column (line 345). -/
def convert_timestamp (df : List LogRow) : List LogRow :=
  df.map (fun r => { r with timestamp := to_datetime r.timestamp })

/-- `nettoyer_donnees`, log part (lines 340-354): convert the timestamp, then
drop exact duplicate rows over all fields. -/
def nettoyer_logs (df : List LogRow) : List LogRow :=
  dropDuplicatesBy (fun r => r) (convert_timestamp df)

/-- `nettoyer_donnees` (lines 241-357) as a function on the three extracted
sources. -/
def nettoyer_donnees (s : Sources) : Sources :=
  { transactions := nettoyer_transactions s.transactions
    clients := nettoyer_clients s.clients
    logs := nettoyer_logs s.logs }

/-- One row of the per-client feature table derived from the logs
(`logs_agg`, lines 377-381). -/
structure FeatureRow : Type where
  client_id : String
  nb_sessions : ℚ
  duree_moy_session_sec : ℚ
deriving Repr, DecidableEq

/-- `df_logs.groupby('client_id').agg({'session_id': 'count',
'duree_session_sec': 'mean'})`: one row per distinct client identifier
(pandas sorts the group keys ascending), with the group size and the mean
session duration. -/
def logs_agg (logs : List LogRow) : List FeatureRow :=
  let keys := sortedBy strLeb (uniqueVals (logs.map (fun r => r.client_id)))
  keys.map (fun k =>
    let g := logs.filter (fun r => r.client_id = k)
    { client_id := k
      nb_sessions := (g.length : ℚ)
      duree_moy_session_sec :=
        (g.map (fun r => r.duree_session_sec)).sum / (g.length : ℚ) })

/-- A row of `transactions LEFT JOIN clients`: the transaction fields plus
the matched client's fields, `none` when the client identifier has no match
(pandas fills every right-hand column with NaN). -/
structure Merged1 : Type where
  t : TransactionRow
  c : Option ClientRow
deriving Repr, DecidableEq

/-- A row of the final merged dataset: the previous join plus the two derived
feature columns. -/
structure MergedRow : Type where
  t : TransactionRow
  c : Option ClientRow
  nb_sessions : Option ℚ
  duree_moy_session_sec : Option ℚ
deriving Repr, DecidableEq

/-- `df_trans.merge(df_clients, on='client_id', how='left')`: every left row
is paired with each matching right row, or with an all-NaN right side when
there is no match. -/
def left_join_clients (ts : List TransactionRow) (cs : List ClientRow) :
    List Merged1 :=
  ts.flatMap (fun t =>
    let ms := cs.filter (fun c => c.client_id = t.client_id)
    if ms.isEmpty then [{ t := t, c := none }]
    else ms.map (fun c => { t := t, c := some c }))

/-- `df_merged.merge(logs_agg, on='client_id', how='left')`. -/
def left_join_features (ms : List Merged1) (fs : List FeatureRow) :
    List MergedRow :=
  ms.flatMap (fun m =>
    let gs := fs.filter (fun f => f.client_id = m.t.client_id)
    if gs.isEmpty then
      [{ t := m.t, c := m.c, nb_sessions := none, duree_moy_session_sec := none }]
    else gs.map (fun f =>
      { t := m.t, c := m.c, nb_sessions := some f.nb_sessions
        duree_moy_session_sec := some f.duree_moy_session_sec }))

/-- `agréger_données` (etl_pipeline.py lines 359-416): build the per-client
feature table from the logs, left-join transactions to clients on the client
identifier, left-join the result to the feature table, and zero-fill the two
derived feature columns. -/
def agreger_donnees (ts : List TransactionRow) (cs : List ClientRow)
    (ls : List LogRow) : List MergedRow :=
  let la := logs_agg ls
  let m1 := left_join_clients ts cs
  let m2 := left_join_features m1 la
  m2.map (fun r =>
    { r with nb_sessions := fillna r.nb_sessions (some 0)
             duree_moy_session_sec := fillna r.duree_moy_session_sec (some 0) })

/-- Per-table load record built by `charger_donnees`
(etl_pipeline.py lines 456-461).  The `status` field is set to `OK`
unconditionally, whatever the integrity check found. -/
structure LoadStat : Type where
  lignes : Nat
  colonnes : Nat
  fichier : String
  status : String
deriving Repr, DecidableEq

/-- Load one named table (`charger_donnees` loop body, lines 434-461).  The
persistence collaborator `persist` stands for the `to_csv` write followed by
the `read_csv` re-read; the returned rows are what the re-read yields.  The
console messages are returned alongside the per-table record: an integrity
success or failure line is printed, but the recorded `status` is `OK` either
way. -/
def charger_table (persist : String → List (List String) → List (List String))
    (entry : String × List (List String)) :
    (String × LoadStat) × List String :=
  let table_name := entry.1
  let df := entry.2
  let persisted := persist table_name df
  let nb_lignes_source := df.length
  let nb_lignes_fichier := persisted.length
  let messages :=
    if nb_lignes_source = nb_lignes_fichier then
      ["verification integrite ok: " ++ table_name]
    else
      ["ERREUR integrite: " ++ table_name]
  ((table_name,
    { lignes := nb_lignes_source
      colonnes := (df.headD []).length
      fichier := "data/processed/" ++ table_name ++ "_clean.csv"
      status := "OK" }), messages)

/-- `charger_donnees(simulate=True)` (lines 418-473): iterate over every
named table of `self.cleaned_data`, persist it, compare the re-read row count
with the in-memory row count, and record the per-table statistics.  Returns
the statistics list in table order together with all console messages. -/
def charger_donnees (cleaned : List (String × List (List String)))
    (persist : String → List (List String) → List (List String)) :
    List (String × LoadStat) × List String :=
  match cleaned with
  | [] => ([], [])
  | e :: rest =>
    let (st, msgs) := charger_table persist e
    let (sts, ms) := charger_donnees rest persist
    (st :: sts, msgs ++ ms)

/-- Linear congruential step standing in for the seeded `random` / `Faker`
stream (the libraries' exact byte streams are external; what matters for the
properties is that the stream is a deterministic function of the seed). -/
def lcg (s : Nat) : Nat := (s * 1103515245 + 12345) % 2147483648

/-- Draw a value in `[lo, hi]` from the stream, returning the new state. -/
def randBetween (s lo hi : Nat) : Nat × Nat :=
  let s1 := lcg s
  (lo + s1 % (hi + 1 - lo), s1)

/-- Decimal digit character. -/
def digitChar : Nat → Char
  | 0 => '0'
  | 1 => '1'
  | 2 => '2'
  | 3 => '3'
  | 4 => '4'
  | 5 => '5'
  | 6 => '6'
  | 7 => '7'
  | 8 => '8'
  | _ => '9'

/-- Decimal digits of a positive number, fuel-bounded structural recursion. -/
def natToStrAux : Nat → Nat → List Char
  | 0, _ => []
  | fuel + 1, n =>
    if n = 0 then [] else natToStrAux fuel (n / 10) ++ [digitChar (n % 10)]

/-- Decimal rendering of a natural number. -/
def natToStr (n : Nat) : String :=
  if n = 0 then "0" else String.mk (natToStrAux 64 n)

/-- Decimal rendering of an integer. -/
def intToStr (i : Int) : String :=
  if i < 0 then "-" ++ natToStr i.natAbs else natToStr i.natAbs

/-- Rendering of a rational number as numerator/denominator. -/
def ratToStr (q : ℚ) : String :=
  intToStr q.num ++ "/" ++ natToStr q.den

/-- Generate one transaction (`generer_donnees_test`, lines 58-91), drawing
from the random stream in the source's evaluation order.  `fake.date_time_between
(start_date='-30d', end_date='now')` anchors both bounds on the wall clock,
so the timestamp string depends on the current time `now` (modelled in
seconds) as well as on the stream. -/
def genTransaction (now : Int) (i : Nat) (s0 : Nat) : TransactionRow × Nat :=
  let (rf, s1) := randBetween s0 0 9999
  let is_fraud := rf < 25
  let (mc100, s2) := if is_fraud then randBetween s1 50000 500000 else randBetween s1 500 200000
  let (rv, s3) := randBetween s2 0 9999
  let (ville, s4) :=
    if 300 ≤ rv then
      let (cn, sa) := randBetween s3 0 999
      (some ("VILLE_" ++ natToStr cn), sa)
    else (none, s3)
  let (mci, s5) := randBetween s4 0 6
  let merchant_category := ([some "SUPERMARCHE", some "RESTAURANT", some "ESSENCE",
      some "VETEMENTS", some "PHARMACIE", some "LOISIRS", none].getD mci none)
  let (cid, s6) := randBetween s5 1 5000
  let (dofs, s7) := randBetween s6 0 2591999
  let (tti, s8) := randBetween s7 0 2
  let (tci, s9) := randBetween s8 0 2
  let (mid, s10) := randBetween s9 1 500
  let (coords, s11) :=
    if ville.isSome then
      let (la, sa) := randBetween s10 42 51
      let (lo, sb) := randBetween sa 0 12
      ((some (mkRat (la : Int) 1), some (mkRat ((lo : Int) - 4) 1)), sb)
    else ((none, none), s10)
  let (cni, s12) := randBetween s11 0 3
  ({ transaction_id := "TRX_" ++ natToStr i
     client_id := "CLIENT_" ++ natToStr cid
     montant := some (mkRat (mc100 : Int) 100)
     devise := "EUR"
     date_heure := TimeVal.raw (intToStr (now - 2592000 + (dofs : Int)))
     type_transaction := ["PAIEMENT", "RETRAIT", "VIREMENT"].getD tti "PAIEMENT"
     type_carte := ["DEBIT", "CREDIT", "PREPAYEE"].getD tci "DEBIT"
     merchant_id := "MERCHANT_" ++ natToStr mid
     merchant_category := merchant_category
     pays := "FR"
     ville := ville
     latitude := coords.1
     longitude := coords.2
     canal := ["WEB", "MOBILE", "ATM", "POS"].getD cni "WEB"
     is_fraud := is_fraud }, s12)

/-- Generate one client (lines 104-124).  `fake.date_between(start_date='-2y',
end_date='today')` also anchors on the wall clock. -/
def genClient (now : Int) (cid : String) (s0 : Nat) : ClientRow × Nat :=
  let (rs, s1) := randBetween s0 0 9999
  let (score, s2) :=
    if 1100 ≤ rs then
      let (sc, sa) := randBetween s1 300 850
      (some (mkRat (sc : Int) 1), sa)
    else (none, s1)
  let (age, s3) := randBetween s2 18 80
  let (sxi, s4) := randBetween s3 0 2
  let (cp, s5) := randBetween s4 10000 99999
  let (anc, s6) := randBetween s5 1 120
  let (nbp, s7) := randBetween s6 1 5
  let (rvi, s8) := randBetween s7 0 4
  let (rd, s9) := randBetween s8 0 9999
  let (dfr, s10) :=
    if rd < 500 then
      let (d, sa) := randBetween s9 0 63071999
      (some (intToStr (now - 63072000 + (d : Int))), sa)
    else (none, s9)
  ({ client_id := cid
     age := age
     sexe := ["M", "F", "X"].getD sxi "M"
     code_postal := natToStr cp
     anciennete_mois := anc
     nb_produits := nbp
     revenu_annuel_tranche := ["0-20K", "20-40K", "40-60K", "60-100K", ">100K"].getD rvi "0-20K"
     score_credit := score
     date_derniere_fraude := dfr }, s10)

/-- Generate one behavioural log record (lines 134-152). -/
def genLog (now : Int) (cids : List String) (i : Nat) (s0 : Nat) : LogRow × Nat :=
  let (ci, s1) := randBetween s0 0 (cids.length - 1)
  let (dofs, s2) := randBetween s1 0 2591999
  let (ai, s3) := randBetween s2 0 4
  let (di, s4) := randBetween s3 0 2
  let (oi, s5) := randBetween s4 0 3
  let (bi, s6) := randBetween s5 0 3
  let (ip, s7) := randBetween s6 0 4294967295
  let (dur, s8) := randBetween s7 30 3600
  ({ session_id := "SESSION_" ++ natToStr i
     client_id := cids.getD ci ""
     timestamp := TimeVal.raw (intToStr (now - 2592000 + (dofs : Int)))
     action := ["login", "navigation_compte", "consultation_solde",
       "transaction", "logout"].getD ai "login"
     device_type := ["mobile", "desktop", "tablet"].getD di "mobile"
     os := ["iOS", "Android", "Windows", "macOS"].getD oi "iOS"
     browser := ["Chrome", "Safari", "Firefox", "Edge"].getD bi "Chrome"
     ip_address := natToStr ip
     duree_session_sec := mkRat (dur : Int) 1 }, s8)

/-- Generate `n` records with indices `i, i+1, ...`, threading the stream. -/
def genSeq {α : Type} (f : Nat → Nat → α × Nat) : Nat → Nat → Nat → List α × Nat
  | _, 0, s => ([], s)
  | i, Nat.succ k, s =>
    let (a, s1) := f i s
    let (rest, s2) := genSeq f (i + 1) k s1
    (a :: rest, s2)

/-- Generate one client per unique identifier, threading the stream. -/
def genClients (now : Int) : List String → Nat → List ClientRow × Nat
  | [], s => ([], s)
  | cid :: rest, s =>
    let (c, s1) := genClient now cid s
    let (cs, s2) := genClients now rest s1
    (c :: cs, s2)

/-- `generer_donnees_test` (lines 42-158): `nb` transactions, one client per
unique client identifier (first-encountered order, as `Series.unique`), and
`5 * nb` behavioural logs, all drawn from one random stream started at the
seed.  `now` is the wall-clock anchor used by the date generators. -/
def generer_donnees_test (now : Int) (nb : Nat) (seed0 : Nat) : Sources :=
  let (ts, s1) := genSeq (genTransaction now) 0 nb seed0
  let ids := uniqueVals (ts.map (fun r => r.client_id))
  let (cs, s2) := genClients now ids s1
  let (ls, _) := genSeq (genLog now ids) 0 (nb * 5) s2
  { transactions := ts, clients := cs, logs := ls }

/-- One run of the Generator with the module-level fixed seed 42
(etl_pipeline.py lines 20-23). -/
def run_generator (now : Int) (nb : Nat) : Sources :=
  generer_donnees_test now nb 42

/-- Serialize an optional string cell. -/
def optCell (o : Option String) : String := o.getD ""

/-- Serialize an optional rational cell. -/
def ratCell (o : Option ℚ) : String :=
  match o with
  | some q => ratToStr q
  | none => ""

/-- Serialize a timestamp cell. -/
def timeCell : TimeVal → String
  | .raw s => s
  | .ts t => intToStr t

/-- One CSV line of `transactions.csv`. -/
def transaction_csv_row (r : TransactionRow) : String :=
  String.intercalate ";"
    [r.transaction_id, r.client_id, ratCell r.montant, r.devise,
     timeCell r.date_heure, r.type_transaction, r.type_carte, r.merchant_id,
     optCell r.merchant_category, r.pays, optCell r.ville, ratCell r.latitude,
     ratCell r.longitude, r.canal, cond r.is_fraud "True" "False"]

/-- One row of `clients.xlsx` in serialized form. -/
def client_row_cells (r : ClientRow) : String :=
  String.intercalate ";"
    [r.client_id, natToStr r.age, r.sexe, r.code_postal,
     natToStr r.anciennete_mois, natToStr r.nb_produits,
     r.revenu_annuel_tranche, ratCell r.score_credit,
     optCell r.date_derniere_fraude]

/-- One record of `logs_comportement.json` in serialized form. -/
def log_row_cells (r : LogRow) : String :=
  String.intercalate ";"
    [r.session_id, r.client_id, timeCell r.timestamp, r.action,
     r.device_type, r.os, r.browser, r.ip_address,
     ratToStr r.duree_session_sec]

/-- The bytes of the three raw artifacts written by the Generator. -/
def serialize_artifacts (g : Sources) : String :=
  String.intercalate "\n" (g.transactions.map transaction_csv_row) ++
  "\n===\n" ++
  String.intercalate "\n" (g.clients.map client_row_cells) ++
  "\n===\n" ++
  String.intercalate "\n" (g.logs.map log_row_cells)

/-- The pipeline object's mutable attributes used by the cleaning stage:
the extracted sources and the cleaned tables (empty before cleaning). -/
structure ETLState : Type where
  data_sources : Sources
  cleaned_data : Option Sources
deriving Repr, DecidableEq

/-- `nettoyer_donnees` as a method on the pipeline state: each source
DataFrame is copied (`.copy()` at etl_pipeline.py lines 254, 313 and 342)
before any in-place remediation, so the method only fills
`self.cleaned_data`; `self.data_sources` is left as extracted. -/
def nettoyer_donnees_state (st : ETLState) : ETLState :=
  { st with cleaned_data := some (nettoyer_donnees st.data_sources) }

/-- A fully-populated transaction row used to build concrete test tables. -/
def tx0 : TransactionRow :=
  { transaction_id := "TRX_0"
    client_id := "CLIENT_1"
    montant := some 10
    devise := "EUR"
    date_heure := TimeVal.raw "2024-01-01T00:00:00"
    type_transaction := "PAIEMENT"
    type_carte := "DEBIT"
    merchant_id := "MERCHANT_1"
    merchant_category := some "RESTAURANT"
    pays := "FR"
    ville := some "PARIS"
    latitude := some 48
    longitude := some 2
    canal := "WEB"
    is_fraud := false }

/-- A fully-populated client row used to build concrete test tables. -/
def cl0 : ClientRow :=
  { client_id := "CLIENT_1"
    age := 40
    sexe := "M"
    code_postal := "75001"
    anciennete_mois := 12
    nb_produits := 2
    revenu_annuel_tranche := "20-40K"
    score_credit := some 700
    date_derniere_fraude := none }

/-- A fully-populated behavioural log row used to build concrete tables. -/
def lg0 : LogRow :=
  { session_id := "SESSION_0"
    client_id := "CLIENT_1"
    timestamp := TimeVal.raw "2024-01-01T00:00:00"
    action := "login"
    device_type := "mobile"
    os := "iOS"
    browser := "Chrome"
    ip_address := "10.0.0.1"
    duree_session_sec := 120 }

/-- A transaction table whose latitude and longitude columns are entirely
missing: the median of an all-missing column is NaN, so `fillna` leaves the
column missing. -/
def exAllMissingCoords : List TransactionRow :=
  [{ tx0 with latitude := none, longitude := none }]

/-- A transaction table realizing a frequency tie in the merchant-category
column: `ZZ` is encountered first, `AA` is lexicographically smaller, both
occur once, and the third row is missing. -/
def exTie : List TransactionRow :=
  [{ tx0 with transaction_id := "TRX_0", merchant_category := some "ZZ" },
   { tx0 with transaction_id := "TRX_1", merchant_category := some "AA" },
   { tx0 with transaction_id := "TRX_2", merchant_category := none }]

/-- A transaction table whose only row has a valid latitude and a longitude
far outside [-180, 180]. -/
def exBadLongitude : List TransactionRow :=
  [{ tx0 with latitude := some 0, longitude := some 1000 }]

/-- The cleaned tables persisted by the loader in the C2 scenario: two named
tables of two rows and one row respectively. -/
def exCleanedTables : List (String × List (List String)) :=
  [("transactions", [["r1"], ["r2"]]), ("clients", [["c1"]])]

/-- A persistence collaborator that silently truncates the `transactions`
table and persists every other table faithfully. -/
def persistTrunc (table_name : String) (df : List (List String)) :
    List (List String) :=
  if table_name = "transactions" then [] else df

/-! ## Helper lemmas -/

theorem fillna_none {α : Type} (v : Option α) : fillna v none = v := by
  cases v <;> rfl

theorem fillna_some {α : Type} (a : α) (m : Option α) :
    fillna (some a) m = some a := rfl

theorem isSome_fillna_some {α : Type} (v : Option α) (b : α) :
    (fillna v (some b)).isSome := by
  cases v <;> rfl

theorem isSome_fillna_of_isSome {α : Type} (v m : Option α)
    (h : m.isSome) : (fillna v m).isSome := by
  cases v <;> simp [fillna, h]

theorem length_insSorted {α : Type} (le : α → α → Bool) (a : α) (l : List α) :
    (insSorted le a l).length = l.length + 1 := by
  induction l with
  | nil => rfl
  | cons b l ih =>
    simp only [insSorted]
    by_cases h : le a b
    · simp [h]
    · simp [h, ih]

theorem length_sortedBy {α : Type} (le : α → α → Bool) (l : List α) :
    (sortedBy le l).length = l.length := by
  induction l with
  | nil => rfl
  | cons a l ih => simp [sortedBy, length_insSorted, ih]

theorem mem_insSorted {α : Type} (le : α → α → Bool) (a y : α) (l : List α) :
    y ∈ insSorted le a l ↔ y = a ∨ y ∈ l := by
  induction l with
  | nil => simp [insSorted]
  | cons b l ih =>
    simp only [insSorted]
    cases hab : le a b with
    | true =>
      rw [if_pos rfl]
      simp only [List.mem_cons]
    | false =>
      rw [if_neg Bool.false_ne_true]
      simp only [List.mem_cons, ih]
      tauto

theorem mem_sortedBy {α : Type} (le : α → α → Bool) (y : α) (l : List α) :
    y ∈ sortedBy le l ↔ y ∈ l := by
  induction l with
  | nil => simp [sortedBy]
  | cons a l ih => simp [sortedBy, mem_insSorted, ih]

theorem pairwise_insSorted {α : Type} (le : α → α → Bool)
    (htr : ∀ a b c, le a b = true → le b c = true → le a c = true)
    (hto : ∀ a b, le a b = true ∨ le b a = true)
    (a : α) (l : List α) (hl : List.Pairwise (fun x y => le x y = true) l) :
    List.Pairwise (fun x y => le x y = true) (insSorted le a l) := by
  induction l with
  | nil => simp [insSorted]
  | cons b l ih =>
    simp only [insSorted]
    rcases hl with _ | ⟨hb, hl⟩
    cases hab : le a b with
    | true =>
      rw [if_pos rfl]
      refine List.Pairwise.cons ?_ (List.Pairwise.cons hb hl)
      intro x hx
      rcases List.mem_cons.mp hx with rfl | hx
      · exact hab
      · exact htr a b x hab (hb x hx)
    | false =>
      rw [if_neg Bool.false_ne_true]
      refine List.Pairwise.cons ?_ (ih hl)
      intro x hx
      rcases (mem_insSorted le a x l).mp hx with rfl | hx
      · rcases hto x b with h1 | h1
        · exact absurd h1 (by simp [hab])
        · exact h1
      · exact hb x hx

theorem pairwise_sortedBy {α : Type} (le : α → α → Bool)
    (htr : ∀ a b c, le a b = true → le b c = true → le a c = true)
    (hto : ∀ a b, le a b = true ∨ le b a = true) (l : List α) :
    List.Pairwise (fun x y => le x y = true) (sortedBy le l) := by
  induction l with
  | nil => simp [sortedBy]
  | cons a l ih => exact pairwise_insSorted le htr hto a _ ih

theorem mediane_isSome (xs : List ℚ) (h : xs ≠ []) : (mediane xs).isSome := by
  have hlen : (sortedBy (fun a b => decide (a ≤ b)) xs).length = xs.length :=
    length_sortedBy _ xs
  have hpos : 0 < xs.length := List.length_pos.mpr h
  simp only [mediane]
  set s := sortedBy (fun a b => decide (a ≤ b)) xs with hs
  have hn : s.length = xs.length := hlen
  have h0 : ¬ s.length = 0 := by omega
  simp only [h0, if_false]
  by_cases hodd : s.length % 2 = 1
  · simp only [hodd, if_true]
    have : s.length / 2 < s.length := by omega
    rcases List.getElem?_eq_some_iff.mpr ⟨this, rfl⟩ with h
    simp [List.getElem?_eq_getElem this]
  · simp only [hodd, if_false]
    have h2 : 2 ≤ s.length := by omega
    have ha : s.length / 2 - 1 < s.length := by omega
    have hb : s.length / 2 < s.length := by omega
    simp [List.getElem?_eq_getElem ha, List.getElem?_eq_getElem hb, Option.bind]

theorem mem_dropDupGo {α β : Type} (key : α → β) [DecidableEq β]
    (seen : List β) (l : List α) (x : α) (hx : x ∈ dropDupGo key seen l) :
    x ∈ l := by
  induction l generalizing seen with
  | nil => simp [dropDupGo] at hx
  | cons y ys ih =>
    simp only [dropDupGo] at hx
    by_cases h : key y ∈ seen
    · simp only [h, if_true] at hx
      exact List.mem_cons_of_mem _ (ih _ hx)
    · simp only [h, if_false, List.mem_cons] at hx
      rcases hx with rfl | hx
      · exact List.mem_cons_self _ _
      · exact List.mem_cons_of_mem _ (ih _ hx)

theorem nodup_keys_dropDupGo {α β : Type} (key : α → β) [DecidableEq β]
    (seen : List β) (l : List α) :
    ((dropDupGo key seen l).map key).Nodup ∧
      ∀ b ∈ (dropDupGo key seen l).map key, b ∉ seen := by
  induction l generalizing seen with
  | nil => simp [dropDupGo]
  | cons y ys ih =>
    simp only [dropDupGo]
    by_cases h : key y ∈ seen
    · simpa [h] using ih seen
    · simp only [h, if_false, List.map_cons, List.nodup_cons]
      rcases ih (key y :: seen) with ⟨hnd, hns⟩
      refine ⟨⟨fun hmem => ?_, hnd⟩, ?_⟩
      · exact (hns _ hmem) (List.mem_cons_self _ _)
      · intro b hb
        rcases List.mem_cons.mp hb with rfl | hb
        · exact h
        · intro hbs
          exact (hns b hb) (List.mem_cons_of_mem _ hbs)

theorem dropDupGo_eq_self {α β : Type} (key : α → β) [DecidableEq β]
    (seen : List β) (l : List α) (hnd : (l.map key).Nodup)
    (hdis : ∀ x ∈ l, key x ∉ seen) : dropDupGo key seen l = l := by
  induction l generalizing seen with
  | nil => rfl
  | cons y ys ih =>
    simp only [List.map_cons, List.nodup_cons] at hnd
    have hy : key y ∉ seen := hdis y (List.mem_cons_self _ _)
    simp only [dropDupGo, hy, if_false]
    congr 1
    refine ih _ hnd.2 ?_
    intro x hx
    intro hmem
    rcases List.mem_cons.mp hmem with heq | hmem
    · exact hnd.1 (heq ▸ List.mem_map_of_mem key hx)
    · exact hdis x (List.mem_cons_of_mem _ hx) hmem

theorem dropDuplicatesBy_eq_self {α β : Type} (key : α → β) [DecidableEq β]
    (l : List α) (hnd : (l.map key).Nodup) : dropDuplicatesBy key l = l :=
  dropDupGo_eq_self key [] l hnd (by simp)

theorem mem_uniqueVals {α : Type} [DecidableEq α] (l : List α) (x : α) :
    x ∈ uniqueVals l ↔ x ∈ l := by
  constructor
  · exact mem_dropDupGo _ [] l x
  · intro hx
    have : ∀ seen : List α, x ∈ l → x ∉ seen →
        x ∈ dropDupGo (fun a => a) seen l := by
      clear hx
      induction l with
      | nil => intro seen h; simp at h
      | cons y ys ih =>
        intro seen hmem hns
        simp only [dropDupGo]
        by_cases h : y ∈ seen
        · simp only [h, if_true]
          rcases List.mem_cons.mp hmem with rfl | hmem
          · exact absurd h hns
          · exact ih seen hmem hns
        · simp only [h, if_false, List.mem_cons]
          rcases List.mem_cons.mp hmem with rfl | hmem
          · exact Or.inl rfl
          · by_cases hxy : x = y
            · exact Or.inl hxy
            · refine Or.inr (ih _ hmem ?_)
              intro hc
              rcases List.mem_cons.mp hc with h1 | h1
              · exact hxy h1
              · exact hns h1
    exact this [] hx (by simp)

theorem le_foldr_max (l : List Nat) (a : Nat) (ha : a ∈ l) :
    a ≤ l.foldr max 0 := by
  induction l with
  | nil => simp at ha
  | cons b l ih =>
    rcases List.mem_cons.mp ha with rfl | ha
    · exact Nat.le_max_left _ _
    · exact le_trans (ih ha) (Nat.le_max_right _ _)

theorem foldr_max_mem (l : List Nat) :
    l.foldr max 0 = 0 ∨ l.foldr max 0 ∈ l := by
  induction l with
  | nil => simp
  | cons b l ih =>
    simp only [List.foldr_cons]
    rcases Nat.le_total b (l.foldr max 0) with h | h
    · rw [Nat.max_eq_right h]
      rcases ih with h0 | hm
      · exact Or.inl h0
      · exact Or.inr (List.mem_cons_of_mem _ hm)
    · rw [Nat.max_eq_left h]
      exact Or.inr (List.mem_cons_self _ _)

theorem forall_mem_map_of {α β : Type} {l : List α} {f : α → β} {P : β → Prop}
    (h : ∀ x ∈ l, P (f x)) : ∀ y ∈ l.map f, P y := by
  intro y hy
  rcases List.mem_map.mp hy with ⟨x, hx, rfl⟩
  exact h x hx

theorem length_flatMap_of_one {α β : Type} (l : List α) (f : α → List β)
    (h : ∀ x ∈ l, (f x).length = 1) : (l.flatMap f).length = l.length := by
  induction l with
  | nil => rfl
  | cons x xs ih =>
    rw [List.flatMap_cons, List.length_append, h x (List.mem_cons_self _ _),
      ih (fun y hy => h y (List.mem_cons_of_mem _ hy)), List.length_cons]
    omega

theorem filter_key_length_le_one {α β : Type} (key : α → β) [DecidableEq β]
    (l : List α) (k : β) (hnd : (l.map key).Nodup) :
    (l.filter (fun x => key x = k)).length ≤ 1 := by
  induction l with
  | nil => simp
  | cons x xs ih =>
    simp only [List.map_cons, List.nodup_cons] at hnd
    by_cases h : key x = k
    · rw [List.filter_cons_of_pos (by simpa using h)]
      have hnil : xs.filter (fun y => key y = k) = [] := by
        rw [List.filter_eq_nil_iff]
        intro y hy
        simp only [decide_eq_true_eq]
        intro hyk
        exact hnd.1 (by rw [h, ← hyk]; exact List.mem_map_of_mem key hy)
      simp [hnil]
    · rw [List.filter_cons_of_neg (by simpa using h)]
      exact ih hnd.2

theorem length_left_join_clients (ts : List TransactionRow)
    (cs : List ClientRow) (h : (cs.map (fun c => c.client_id)).Nodup) :
    (left_join_clients ts cs).length = ts.length := by
  unfold left_join_clients
  refine length_flatMap_of_one ts _ ?_
  intro t _
  by_cases he : (cs.filter (fun c => c.client_id = t.client_id)).isEmpty
  · simp [he]
  · have hle : (cs.filter (fun c => c.client_id = t.client_id)).length ≤ 1 :=
      filter_key_length_le_one (fun c => c.client_id) cs t.client_id h
    have hne : cs.filter (fun c => c.client_id = t.client_id) ≠ [] := by
      intro hc
      exact he (by simp [hc])
    have hge : 1 ≤ (cs.filter (fun c => c.client_id = t.client_id)).length :=
      List.length_pos.mpr hne
    rw [if_neg he, List.length_map]
    omega

theorem length_left_join_features (ms : List Merged1) (fs : List FeatureRow)
    (h : (fs.map (fun f => f.client_id)).Nodup) :
    (left_join_features ms fs).length = ms.length := by
  unfold left_join_features
  refine length_flatMap_of_one ms _ ?_
  intro m _
  by_cases he : (fs.filter (fun f => f.client_id = m.t.client_id)).isEmpty
  · simp [he]
  · have hle : (fs.filter (fun f => f.client_id = m.t.client_id)).length ≤ 1 :=
      filter_key_length_le_one (fun f => f.client_id) fs m.t.client_id h
    have hne : fs.filter (fun f => f.client_id = m.t.client_id) ≠ [] := by
      intro hc
      exact he (by simp [hc])
    have hge : 1 ≤ (fs.filter (fun f => f.client_id = m.t.client_id)).length :=
      List.length_pos.mpr hne
    rw [if_neg he, List.length_map]
    omega

theorem map_eq_self {α : Type} (l : List α) (f : α → α)
    (h : ∀ r ∈ l, f r = r) : l.map f = l := by
  induction l with
  | nil => rfl
  | cons x xs ih =>
    rw [List.map_cons, h x (List.mem_cons_self _ _),
      ih (fun y hy => h y (List.mem_cons_of_mem _ hy))]

theorem to_datetime_idem (t : TimeVal) :
    to_datetime (to_datetime t) = to_datetime t := by
  cases t <;> rfl

theorem fill_latitude_eq_self_of_isSome (df : List TransactionRow)
    (h : ∀ r ∈ df, r.latitude.isSome) : fill_latitude df = df := by
  simp only [fill_latitude]
  refine map_eq_self df _ ?_
  intro r hr
  rcases Option.isSome_iff_exists.mp (h r hr) with ⟨a, ha⟩
  rw [ha, fillna_some, ← ha]

theorem fill_latitude_eq_self_of_none (df : List TransactionRow)
    (h : ∀ r ∈ df, r.latitude = none) : fill_latitude df = df := by
  have hcol : df.filterMap (fun r => r.latitude) = [] :=
    List.filterMap_eq_nil_iff.mpr h
  simp only [fill_latitude, hcol]
  refine map_eq_self df _ ?_
  intro r _
  rw [show mediane [] = none from rfl, fillna_none]

theorem fill_longitude_eq_self_of_isSome (df : List TransactionRow)
    (h : ∀ r ∈ df, r.longitude.isSome) : fill_longitude df = df := by
  simp only [fill_longitude]
  refine map_eq_self df _ ?_
  intro r hr
  rcases Option.isSome_iff_exists.mp (h r hr) with ⟨a, ha⟩
  rw [ha, fillna_some, ← ha]

theorem fill_longitude_eq_self_of_none (df : List TransactionRow)
    (h : ∀ r ∈ df, r.longitude = none) : fill_longitude df = df := by
  have hcol : df.filterMap (fun r => r.longitude) = [] :=
    List.filterMap_eq_nil_iff.mpr h
  simp only [fill_longitude, hcol]
  refine map_eq_self df _ ?_
  intro r _
  rw [show mediane [] = none from rfl, fillna_none]

theorem fill_ville_eq_self_of_isSome (df : List TransactionRow)
    (h : ∀ r ∈ df, r.ville.isSome) : fill_ville df = df := by
  simp only [fill_ville]
  refine map_eq_self df _ ?_
  intro r hr
  rcases Option.isSome_iff_exists.mp (h r hr) with ⟨a, ha⟩
  rw [ha, fillna_some, ← ha]

theorem fill_merchant_category_eq_self_of_isSome (df : List TransactionRow)
    (h : ∀ r ∈ df, r.merchant_category.isSome) :
    fill_merchant_category df = df := by
  simp only [fill_merchant_category]
  refine map_eq_self df _ ?_
  intro r hr
  rcases Option.isSome_iff_exists.mp (h r hr) with ⟨a, ha⟩
  rw [ha, fillna_some, ← ha]

/-- Every row of the cleaned transaction table is the timestamp-conversion of
a row of the fully imputed table (before duplicate and negative-amount
removal). -/
theorem mem_nettoyer_tx_origin (df : List TransactionRow) (r : TransactionRow)
    (hr : r ∈ nettoyer_transactions df) :
    ∃ s ∈ fill_merchant_category (fill_ville (fill_longitude (fill_latitude df))),
      r = { s with date_heure := to_datetime s.date_heure } := by
  unfold nettoyer_transactions convert_date_heure at hr
  rcases List.mem_map.mp hr with ⟨u, hu, rfl⟩
  unfold filtre_montant at hu
  have h5 := (List.mem_filter.mp hu).1
  exact ⟨u, mem_dropDupGo _ _ _ _ h5, rfl⟩

/-- Every row of the fully imputed table has for latitude the `fillna` of an
original row's latitude by the original column median. -/
theorem latitude_after_fills (df : List TransactionRow) (r : TransactionRow)
    (hr : r ∈ fill_merchant_category (fill_ville (fill_longitude (fill_latitude df)))) :
    ∃ s ∈ df,
      r.latitude = fillna s.latitude (mediane (df.filterMap (fun x => x.latitude))) := by
  simp only [fill_merchant_category] at hr
  rcases List.mem_map.mp hr with ⟨a, ha, rfl⟩
  simp only [fill_ville] at ha
  rcases List.mem_map.mp ha with ⟨b, hb, rfl⟩
  simp only [fill_longitude] at hb
  rcases List.mem_map.mp hb with ⟨c, hc, rfl⟩
  simp only [fill_latitude] at hc
  rcases List.mem_map.mp hc with ⟨s, hs, rfl⟩
  exact ⟨s, hs, rfl⟩

/-- Imputing the latitude column does not change the longitude column. -/
theorem filterMap_longitude_fill_latitude (df : List TransactionRow) :
    (fill_latitude df).filterMap (fun r => r.longitude) =
      df.filterMap (fun r => r.longitude) := by
  simp only [fill_latitude]
  rw [List.filterMap_map]
  rfl

/-- Every row of the fully imputed table has for longitude the `fillna` of an
original row's longitude by the original column median. -/
theorem longitude_after_fills (df : List TransactionRow) (r : TransactionRow)
    (hr : r ∈ fill_merchant_category (fill_ville (fill_longitude (fill_latitude df)))) :
    ∃ s ∈ df,
      r.longitude = fillna s.longitude (mediane (df.filterMap (fun x => x.longitude))) := by
  simp only [fill_merchant_category] at hr
  rcases List.mem_map.mp hr with ⟨a, ha, rfl⟩
  simp only [fill_ville] at ha
  rcases List.mem_map.mp ha with ⟨b, hb, rfl⟩
  simp only [fill_longitude, filterMap_longitude_fill_latitude] at hb
  rcases List.mem_map.mp hb with ⟨c, hc, rfl⟩
  simp only [fill_latitude] at hc
  rcases List.mem_map.mp hc with ⟨s, hs, rfl⟩
  exact ⟨s, hs, rfl⟩

/-- Every row of the fully imputed table has a present city. -/
theorem ville_after_fills (df : List TransactionRow) (r : TransactionRow)
    (hr : r ∈ fill_merchant_category (fill_ville (fill_longitude (fill_latitude df)))) :
    r.ville.isSome := by
  simp only [fill_merchant_category] at hr
  rcases List.mem_map.mp hr with ⟨a, ha, rfl⟩
  simp only [fill_ville] at ha
  rcases List.mem_map.mp ha with ⟨b, _, rfl⟩
  exact isSome_fillna_some _ _

/-- Every row of the fully imputed table has a present merchant category. -/
theorem merchant_category_after_fills (df : List TransactionRow)
    (r : TransactionRow)
    (hr : r ∈ fill_merchant_category (fill_ville (fill_longitude (fill_latitude df)))) :
    r.merchant_category.isSome := by
  simp only [fill_merchant_category] at hr
  rcases List.mem_map.mp hr with ⟨a, _, rfl⟩
  exact isSome_fillna_some _ _

theorem nettoyer_transactions_latitude_isSome (df : List TransactionRow)
    (h : df.filterMap (fun r => r.latitude) ≠ []) :
    ∀ r ∈ nettoyer_transactions df, r.latitude.isSome := by
  intro r hr
  rcases mem_nettoyer_tx_origin df r hr with ⟨s, hs, rfl⟩
  show s.latitude.isSome
  rcases latitude_after_fills df s hs with ⟨u, _, heq⟩
  rw [heq]
  exact isSome_fillna_of_isSome _ _ (mediane_isSome _ h)

theorem nettoyer_transactions_latitude_none (df : List TransactionRow)
    (h : df.filterMap (fun r => r.latitude) = []) :
    ∀ r ∈ nettoyer_transactions df, r.latitude = none := by
  intro r hr
  rcases mem_nettoyer_tx_origin df r hr with ⟨s, hs, rfl⟩
  show s.latitude = none
  rcases latitude_after_fills df s hs with ⟨u, hu, heq⟩
  rw [heq, h, show mediane [] = none from rfl, fillna_none]
  exact List.filterMap_eq_nil_iff.mp h u hu

theorem nettoyer_transactions_longitude_isSome (df : List TransactionRow)
    (h : df.filterMap (fun r => r.longitude) ≠ []) :
    ∀ r ∈ nettoyer_transactions df, r.longitude.isSome := by
  intro r hr
  rcases mem_nettoyer_tx_origin df r hr with ⟨s, hs, rfl⟩
  show s.longitude.isSome
  rcases longitude_after_fills df s hs with ⟨u, _, heq⟩
  rw [heq]
  exact isSome_fillna_of_isSome _ _ (mediane_isSome _ h)

theorem nettoyer_transactions_longitude_none (df : List TransactionRow)
    (h : df.filterMap (fun r => r.longitude) = []) :
    ∀ r ∈ nettoyer_transactions df, r.longitude = none := by
  intro r hr
  rcases mem_nettoyer_tx_origin df r hr with ⟨s, hs, rfl⟩
  show s.longitude = none
  rcases longitude_after_fills df s hs with ⟨u, hu, heq⟩
  rw [heq, h, show mediane [] = none from rfl, fillna_none]
  exact List.filterMap_eq_nil_iff.mp h u hu

theorem nettoyer_transactions_ville_isSome (df : List TransactionRow) :
    ∀ r ∈ nettoyer_transactions df, r.ville.isSome := by
  intro r hr
  rcases mem_nettoyer_tx_origin df r hr with ⟨s, hs, rfl⟩
  show s.ville.isSome
  exact ville_after_fills df s hs

theorem nettoyer_transactions_mc_isSome (df : List TransactionRow) :
    ∀ r ∈ nettoyer_transactions df, r.merchant_category.isSome := by
  intro r hr
  rcases mem_nettoyer_tx_origin df r hr with ⟨s, hs, rfl⟩
  show s.merchant_category.isSome
  exact merchant_category_after_fills df s hs

theorem nettoyer_transactions_nodup (df : List TransactionRow) :
    ((nettoyer_transactions df).map (fun r => r.transaction_id)).Nodup := by
  unfold nettoyer_transactions convert_date_heure
  rw [List.map_map]
  show (List.map (fun r => r.transaction_id)
    (filtre_montant (dropDuplicatesBy (fun r => r.transaction_id)
      (fill_merchant_category (fill_ville (fill_longitude (fill_latitude df))))))).Nodup
  unfold filtre_montant
  have h1 : ((dropDuplicatesBy (fun r : TransactionRow => r.transaction_id)
      (fill_merchant_category (fill_ville (fill_longitude (fill_latitude df))))).map
      (fun r => r.transaction_id)).Nodup :=
    (nodup_keys_dropDupGo (fun r : TransactionRow => r.transaction_id) [] _).1
  exact List.Nodup.sublist (List.Sublist.map _ (List.filter_sublist _)) h1

theorem nettoyer_transactions_montant_ok (df : List TransactionRow) :
    ∀ r ∈ nettoyer_transactions df,
      (match r.montant with
        | some m => decide (0 ≤ m)
        | none => false) = true := by
  intro r hr
  unfold nettoyer_transactions convert_date_heure at hr
  rcases List.mem_map.mp hr with ⟨u, hu, rfl⟩
  unfold filtre_montant at hu
  exact (List.mem_filter.mp hu).2

theorem nettoyer_transactions_converted (df : List TransactionRow) :
    ∀ r ∈ nettoyer_transactions df, to_datetime r.date_heure = r.date_heure := by
  intro r hr
  unfold nettoyer_transactions convert_date_heure at hr
  rcases List.mem_map.mp hr with ⟨u, _, rfl⟩
  show to_datetime (to_datetime u.date_heure) = to_datetime u.date_heure
  exact to_datetime_idem _

theorem nettoyer_transactions_eq_self (df : List TransactionRow)
    (hlat : (∀ r ∈ df, r.latitude.isSome) ∨ (∀ r ∈ df, r.latitude = none))
    (hlon : (∀ r ∈ df, r.longitude.isSome) ∨ (∀ r ∈ df, r.longitude = none))
    (hv : ∀ r ∈ df, r.ville.isSome)
    (hmc : ∀ r ∈ df, r.merchant_category.isSome)
    (hnd : (df.map (fun r => r.transaction_id)).Nodup)
    (hm : ∀ r ∈ df,
      (match r.montant with
        | some m => decide (0 ≤ m)
        | none => false) = true)
    (hc : ∀ r ∈ df, to_datetime r.date_heure = r.date_heure) :
    nettoyer_transactions df = df := by
  have e1 : fill_latitude df = df := by
    rcases hlat with h | h
    · exact fill_latitude_eq_self_of_isSome df h
    · exact fill_latitude_eq_self_of_none df h
  have e2 : fill_longitude df = df := by
    rcases hlon with h | h
    · exact fill_longitude_eq_self_of_isSome df h
    · exact fill_longitude_eq_self_of_none df h
  have e3 : fill_ville df = df := fill_ville_eq_self_of_isSome df hv
  have e4 : fill_merchant_category df = df :=
    fill_merchant_category_eq_self_of_isSome df hmc
  have e5 : dropDuplicatesBy (fun r => r.transaction_id) df = df :=
    dropDuplicatesBy_eq_self _ df hnd
  have e6 : filtre_montant df = df := by
    unfold filtre_montant
    exact List.filter_eq_self.mpr hm
  have e7 : convert_date_heure df = df := by
    unfold convert_date_heure
    refine map_eq_self df _ ?_
    intro r hr
    rw [hc r hr]
  unfold nettoyer_transactions
  rw [e1, e2, e3, e4, e5, e6, e7]

theorem nettoyer_clients_score_isSome (df : List ClientRow)
    (h : df.filterMap (fun r => r.score_credit) ≠ []) :
    ∀ r ∈ nettoyer_clients df, r.score_credit.isSome := by
  intro r hr
  simp only [nettoyer_clients] at hr
  rcases List.mem_map.mp hr with ⟨s, _, rfl⟩
  exact isSome_fillna_of_isSome _ _ (mediane_isSome _ h)

theorem nettoyer_clients_score_none (df : List ClientRow)
    (h : df.filterMap (fun r => r.score_credit) = []) :
    ∀ r ∈ nettoyer_clients df, r.score_credit = none := by
  intro r hr
  simp only [nettoyer_clients, h] at hr
  rcases List.mem_map.mp hr with ⟨s, hs, rfl⟩
  show fillna s.score_credit (mediane []) = none
  rw [show mediane [] = none from rfl, fillna_none]
  exact List.filterMap_eq_nil_iff.mp h s hs

theorem nettoyer_clients_eq_self (df : List ClientRow)
    (h : (∀ r ∈ df, r.score_credit.isSome) ∨ (∀ r ∈ df, r.score_credit = none)) :
    nettoyer_clients df = df := by
  rcases h with h | h
  · simp only [nettoyer_clients]
    refine map_eq_self df _ ?_
    intro r hr
    rcases Option.isSome_iff_exists.mp (h r hr) with ⟨a, ha⟩
    rw [ha, fillna_some, ← ha]
  · have hcol : df.filterMap (fun r => r.score_credit) = [] :=
      List.filterMap_eq_nil_iff.mpr h
    simp only [nettoyer_clients, hcol]
    refine map_eq_self df _ ?_
    intro r _
    rw [show mediane [] = none from rfl, fillna_none]

theorem nettoyer_logs_converted (df : List LogRow) :
    ∀ r ∈ nettoyer_logs df, to_datetime r.timestamp = r.timestamp := by
  intro r hr
  unfold nettoyer_logs at hr
  have h1 := mem_dropDupGo _ _ _ _ hr
  unfold convert_timestamp at h1
  rcases List.mem_map.mp h1 with ⟨u, _, rfl⟩
  show to_datetime (to_datetime u.timestamp) = to_datetime u.timestamp
  exact to_datetime_idem _

theorem nettoyer_logs_nodup (df : List LogRow) : (nettoyer_logs df).Nodup := by
  unfold nettoyer_logs
  have h := (nodup_keys_dropDupGo (fun r : LogRow => r) [] (convert_timestamp df)).1
  rwa [List.map_id'] at h

theorem nettoyer_logs_eq_self (df : List LogRow)
    (hc : ∀ r ∈ df, to_datetime r.timestamp = r.timestamp)
    (hnd : df.Nodup) : nettoyer_logs df = df := by
  unfold nettoyer_logs
  have e1 : convert_timestamp df = df := by
    unfold convert_timestamp
    refine map_eq_self df _ ?_
    intro r hr
    rw [hc r hr]
  rw [e1]
  refine dropDuplicatesBy_eq_self _ df ?_
  rwa [List.map_id']

theorem chListLeb_refl (xs : List Char) : chListLeb xs xs = true := by
  induction xs with
  | nil => rfl
  | cons c cs ih => simp [chListLeb, ih]

theorem strLeb_refl (s : String) : strLeb s s = true := chListLeb_refl s.data

theorem chListLeb_total (xs ys : List Char) :
    chListLeb xs ys = true ∨ chListLeb ys xs = true := by
  induction xs generalizing ys with
  | nil => exact Or.inl rfl
  | cons c cs ih =>
    cases ys with
    | nil => exact Or.inr rfl
    | cons d ds =>
      rcases Nat.lt_trichotomy c.toNat d.toNat with h | h | h
      · left
        simp [chListLeb, h]
      · have h1 : ¬ c.toNat < d.toNat := by omega
        have h2 : ¬ d.toNat < c.toNat := by omega
        rcases ih ds with hcd | hdc
        · left
          simp [chListLeb, h1, h2, hcd]
        · right
          simp [chListLeb, h1, h2, hdc]
      · right
        simp [chListLeb, h]

theorem strLeb_total (a b : String) :
    strLeb a b = true ∨ strLeb b a = true :=
  chListLeb_total a.data b.data

theorem chListLeb_trans (xs ys zs : List Char)
    (h1 : chListLeb xs ys = true) (h2 : chListLeb ys zs = true) :
    chListLeb xs zs = true := by
  induction xs generalizing ys zs with
  | nil => rfl
  | cons c cs ih =>
    cases ys with
    | nil => simp [chListLeb] at h1
    | cons d ds =>
      cases zs with
      | nil => simp [chListLeb] at h2
      | cons e es =>
        by_cases hcd : c.toNat < d.toNat
        · by_cases hde : d.toNat < e.toNat
          · have hce : c.toNat < e.toNat := lt_trans hcd hde
            simp [chListLeb, hce]
          · by_cases hed : e.toNat < d.toNat
            · simp [chListLeb, hde, hed] at h2
            · have hce : c.toNat < e.toNat := by omega
              simp [chListLeb, hce]
        · by_cases hdc : d.toNat < c.toNat
          · simp [chListLeb, hcd, hdc] at h1
          · by_cases hde : d.toNat < e.toNat
            · have hce : c.toNat < e.toNat := by omega
              simp [chListLeb, hce]
            · by_cases hed : e.toNat < d.toNat
              · simp [chListLeb, hde, hed] at h2
              · have hce : ¬ c.toNat < e.toNat := by omega
                have hec : ¬ e.toNat < c.toNat := by omega
                simp [chListLeb, hcd, hdc] at h1
                simp [chListLeb, hde, hed] at h2
                simp [chListLeb, hce, hec]
                exact ih ds es h1 h2

theorem strLeb_trans (a b c : String)
    (h1 : strLeb a b = true) (h2 : strLeb b c = true) : strLeb a c = true :=
  chListLeb_trans a.data b.data c.data h1 h2

/-- Characterization of the merchant-category fill value: on an all-missing
column it is the fallback label; otherwise it occurs in the column, has
maximal frequency, and is the least (ascending order) among the values of
maximal frequency. -/
theorem mode_tx_spec (xs : List (Option String)) :
    (xs.filterMap (fun o => o) = [] ∧ mode_tx xs = "AUTRE") ∨
    (mode_tx xs ∈ xs.filterMap (fun o => o) ∧
      (∀ v ∈ xs.filterMap (fun o => o),
        (xs.filterMap (fun o => o)).count v ≤
          (xs.filterMap (fun o => o)).count (mode_tx xs)) ∧
      (∀ v ∈ xs.filterMap (fun o => o),
        (xs.filterMap (fun o => o)).count v =
          (xs.filterMap (fun o => o)).count (mode_tx xs) →
        strLeb (mode_tx xs) v = true)) := by
  by_cases hv : xs.filterMap (fun o => o) = []
  · left
    refine ⟨hv, ?_⟩
    simp [mode_tx, pandasMode, hv, uniqueVals, dropDuplicatesBy, dropDupGo, sortedBy]
  · right
    set vals := xs.filterMap (fun o => o) with hvals
    set uniq := uniqueVals vals with huniq
    set maxc := (uniq.map (fun v => vals.count v)).foldr max 0 with hmaxc
    have huniq_ne : uniq ≠ [] := by
      rcases List.exists_mem_of_ne_nil vals hv with ⟨a, ha⟩
      exact List.ne_nil_of_mem ((mem_uniqueVals vals a).mpr ha)
    have hmax_ge : ∀ v ∈ vals, vals.count v ≤ maxc := by
      intro v hvv
      exact le_foldr_max _ _
        (List.mem_map_of_mem (fun v => vals.count v)
          ((mem_uniqueVals vals v).mpr hvv))
    have hattain : ∃ u ∈ uniq, vals.count u = maxc := by
      rcases foldr_max_mem (uniq.map (fun v => vals.count v)) with h0 | hm
      · exfalso
        rcases List.exists_mem_of_ne_nil uniq huniq_ne with ⟨a, ha⟩
        have hav : a ∈ vals := (mem_uniqueVals vals a).mp ha
        have h1 : 0 < vals.count a := List.count_pos_iff.mpr hav
        have h2 : vals.count a ≤ maxc :=
          le_foldr_max _ _ (List.mem_map_of_mem (fun v => vals.count v) ha)
        rw [hmaxc] at h2
        omega
      · rcases List.mem_map.mp hm with ⟨u, hu, hcu⟩
        exact ⟨u, hu, hcu⟩
    rcases hattain with ⟨u, hu, hcu⟩
    have hu_filter : u ∈ uniq.filter (fun v => vals.count v = maxc) :=
      List.mem_filter.mpr ⟨hu, by simp [hcu]⟩
    have hu_sorted : u ∈ sortedBy strLeb
        (uniq.filter (fun v => vals.count v = maxc)) :=
      (mem_sortedBy _ _ _).mpr hu_filter
    have hmode_eq : pandasMode xs = sortedBy strLeb
        (uniq.filter (fun v => vals.count v = maxc)) := rfl
    have hpw := pairwise_sortedBy strLeb
      strLeb_trans strLeb_total
      (uniq.filter (fun v => vals.count v = maxc))
    rcases hP : pandasMode xs with _ | ⟨c, rest⟩
    · rw [hmode_eq] at hP
      rw [hP] at hu_sorted
      simp at hu_sorted
    · have hmode_tx : mode_tx xs = c := by simp [mode_tx, hP]
      rw [hmode_eq] at hP
      have hc_mem : c ∈ sortedBy strLeb
          (uniq.filter (fun v => vals.count v = maxc)) := by
        rw [hP]
        exact List.mem_cons_self _ _
      have hc_filter := (mem_sortedBy _ _ _).mp hc_mem
      have hc_uniq := (List.mem_filter.mp hc_filter).1
      have hc_count : vals.count c = maxc := by
        have := (List.mem_filter.mp hc_filter).2
        simpa using this
      refine ⟨?_, ?_, ?_⟩
      · rw [hmode_tx]
        exact (mem_uniqueVals vals c).mp hc_uniq
      · intro v hvv
        rw [hmode_tx, hc_count]
        exact hmax_ge v hvv
      · intro v hvv hcnt
        rw [hmode_tx]
        rw [hmode_tx, hc_count] at hcnt
        have hv_filter : v ∈ uniq.filter (fun w => vals.count w = maxc) :=
          List.mem_filter.mpr ⟨(mem_uniqueVals vals v).mpr hvv, by simp [hcnt]⟩
        have hv_sorted : v ∈ sortedBy strLeb
            (uniq.filter (fun w => vals.count w = maxc)) :=
          (mem_sortedBy _ _ _).mpr hv_filter
        rw [hP] at hv_sorted
        rcases List.mem_cons.mp hv_sorted with rfl | hv_rest
        · exact strLeb_refl _
        · rw [hP] at hpw
          exact List.rel_of_pairwise_cons hpw hv_rest

theorem missingCount_eq_zero {α β : Type} (proj : α → Option β) (df : List α)
    (h : ∀ r ∈ df, (proj r).isSome) : missingCount proj df = 0 := by
  unfold missingCount
  have hnil : df.filter (fun r => (proj r).isNone) = [] := by
    rw [List.filter_eq_nil_iff]
    intro r hr
    rcases Option.isSome_iff_exists.mp (h r hr) with ⟨a, ha⟩
    simp [ha]
  rw [hnil]
  rfl

/-! ## Claim theorems -/

/-- C3 (amended): after cleaning, the imputation-targeted fields — transaction
latitude, longitude, city and merchant category, and client credit score —
all have missing-value count exactly 0, provided the extracted latitude,
longitude and credit-score columns each contain at least one non-missing
value (an all-missing numeric column has a NaN median, which `fillna` leaves
missing); the city and merchant-category counts are 0 without proviso. -/
theorem C3_missing_value_elimination (t : List TransactionRow)
    (c : List ClientRow)
    (hlat : t.filterMap (fun r => r.latitude) ≠ [])
    (hlon : t.filterMap (fun r => r.longitude) ≠ [])
    (hsc : c.filterMap (fun r => r.score_credit) ≠ []) :
    missingCount (fun r => r.latitude) (nettoyer_transactions t) = 0 ∧
    missingCount (fun r => r.longitude) (nettoyer_transactions t) = 0 ∧
    missingCount (fun r => r.ville) (nettoyer_transactions t) = 0 ∧
    missingCount (fun r => r.merchant_category) (nettoyer_transactions t) = 0 ∧
    missingCount (fun r => r.score_credit) (nettoyer_clients c) = 0 :=
  ⟨missingCount_eq_zero _ _ (nettoyer_transactions_latitude_isSome t hlat),
   missingCount_eq_zero _ _ (nettoyer_transactions_longitude_isSome t hlon),
   missingCount_eq_zero _ _ (nettoyer_transactions_ville_isSome t),
   missingCount_eq_zero _ _ (nettoyer_transactions_mc_isSome t),
   missingCount_eq_zero _ _ (nettoyer_clients_score_isSome c hsc)⟩

/-- C3 witness: the amended claim at a concrete one-row input. -/
theorem C3_missing_value_elimination_witness :
    missingCount (fun r => r.latitude) (nettoyer_transactions [tx0]) = 0 ∧
    missingCount (fun r => r.longitude) (nettoyer_transactions [tx0]) = 0 ∧
    missingCount (fun r => r.ville) (nettoyer_transactions [tx0]) = 0 ∧
    missingCount (fun r => r.merchant_category) (nettoyer_transactions [tx0]) = 0 ∧
    missingCount (fun r => r.score_credit) (nettoyer_clients [cl0]) = 0 :=
  C3_missing_value_elimination [tx0] [cl0] (by decide) (by decide) (by decide)

/-- C3 counterexample: on a table whose latitude column is entirely missing,
cleaning leaves the latitude column missing, so the claimed zero missing
count fails as stated. -/
theorem C3_all_missing_counterexample :
    missingCount (fun r => r.latitude) (nettoyer_transactions exAllMissingCoords) ≠ 0 := by
  decide

/-- C4: every row of the cleaned transaction table has a present,
non-negative amount: rows whose amount is negative (or missing) fail the
`montant >= 0` filter and are removed rather than imputed. -/
theorem C4_no_negative_amounts (df : List TransactionRow) (r : TransactionRow)
    (hr : r ∈ nettoyer_transactions df) :
    ∃ m, r.montant = some m ∧ 0 ≤ m := by
  have h := nettoyer_transactions_montant_ok df r hr
  cases hm : r.montant with
  | none => rw [hm] at h; simp at h
  | some m =>
    rw [hm] at h
    exact ⟨m, rfl, by simpa using h⟩

/-- C4 witness: the theorem applied to the single row surviving the cleaning
of a concrete one-row table. -/
theorem C4_no_negative_amounts_witness :
    ∃ m, ((nettoyer_transactions [tx0]).headD tx0).montant = some m ∧ 0 ≤ m :=
  C4_no_negative_amounts [tx0] _ (by decide)

/-- C8: the Cleaner is idempotent — cleaning already-cleaned sources changes
nothing: every imputed column is either fully present (so `fillna` is the
identity) or was left fully missing (so the NaN median fills nothing),
duplicate keys are already unique, no negative amount remains, and the
timestamp columns are already converted. -/
theorem C8_cleaning_idempotent (s : Sources) :
    nettoyer_donnees (nettoyer_donnees s) = nettoyer_donnees s := by
  have ht : nettoyer_transactions (nettoyer_transactions s.transactions) =
      nettoyer_transactions s.transactions := by
    refine nettoyer_transactions_eq_self _ ?_ ?_
      (nettoyer_transactions_ville_isSome _)
      (nettoyer_transactions_mc_isSome _)
      (nettoyer_transactions_nodup _)
      (nettoyer_transactions_montant_ok _)
      (nettoyer_transactions_converted _)
    · by_cases h : s.transactions.filterMap (fun r => r.latitude) = []
      · exact Or.inr (nettoyer_transactions_latitude_none _ h)
      · exact Or.inl (nettoyer_transactions_latitude_isSome _ h)
    · by_cases h : s.transactions.filterMap (fun r => r.longitude) = []
      · exact Or.inr (nettoyer_transactions_longitude_none _ h)
      · exact Or.inl (nettoyer_transactions_longitude_isSome _ h)
  have hcl : nettoyer_clients (nettoyer_clients s.clients) =
      nettoyer_clients s.clients := by
    refine nettoyer_clients_eq_self _ ?_
    by_cases h : s.clients.filterMap (fun r => r.score_credit) = []
    · exact Or.inr (nettoyer_clients_score_none _ h)
    · exact Or.inl (nettoyer_clients_score_isSome _ h)
  have hlg : nettoyer_logs (nettoyer_logs s.logs) = nettoyer_logs s.logs :=
    nettoyer_logs_eq_self _ (nettoyer_logs_converted _) (nettoyer_logs_nodup _)
  simp only [nettoyer_donnees]
  rw [ht, hcl, hlg]

/-- C9: cleaning the client table touches only the credit-score column —
row count and every other column, including the nullable last-known-fraud
date, are returned exactly as extracted (so a missing fraud date stays
null). -/
theorem C9_clients_frame (df : List ClientRow) :
    (nettoyer_clients df).length = df.length ∧
    (nettoyer_clients df).map (fun r => r.client_id) = df.map (fun r => r.client_id) ∧
    (nettoyer_clients df).map (fun r => r.age) = df.map (fun r => r.age) ∧
    (nettoyer_clients df).map (fun r => r.sexe) = df.map (fun r => r.sexe) ∧
    (nettoyer_clients df).map (fun r => r.code_postal) = df.map (fun r => r.code_postal) ∧
    (nettoyer_clients df).map (fun r => r.anciennete_mois) = df.map (fun r => r.anciennete_mois) ∧
    (nettoyer_clients df).map (fun r => r.nb_produits) = df.map (fun r => r.nb_produits) ∧
    (nettoyer_clients df).map (fun r => r.revenu_annuel_tranche) = df.map (fun r => r.revenu_annuel_tranche) ∧
    (nettoyer_clients df).map (fun r => r.date_derniere_fraude) = df.map (fun r => r.date_derniere_fraude) := by
  simp only [nettoyer_clients]
  refine ⟨List.length_map _ _, ?_, ?_, ?_, ?_, ?_, ?_, ?_, ?_⟩ <;> (rw [List.map_map]; rfl)

/-- C10: the cleaning stage never mutates the extracted raw data: thanks to
the `.copy()` taken of each source DataFrame before any in-place remediation,
the pipeline's `data_sources` attribute is identical before and after
`nettoyer_donnees` runs. -/
theorem C10_data_sources_preserved (st : ETLState) :
    (nettoyer_donnees_state st).data_sources = st.data_sources := rfl

/-- C1: when each client identifier occurs at most once in the cleaned client
table and at most once in the per-client feature table derived from the logs,
the two left joins and the zero-fill of the Aggregator preserve the row count
of the cleaned transaction table. -/
theorem C1_join_rowcount_preservation (ts : List TransactionRow)
    (cs : List ClientRow) (ls : List LogRow)
    (hc : (cs.map (fun c => c.client_id)).Nodup)
    (hf : ((logs_agg ls).map (fun f => f.client_id)).Nodup) :
    (agreger_donnees ts cs ls).length = ts.length := by
  simp only [agreger_donnees]
  rw [List.length_map, length_left_join_features _ _ hf,
    length_left_join_clients _ _ hc]

/-- C1 witness: unique keys and preserved row count at a concrete input. -/
theorem C1_join_rowcount_preservation_witness :
    ([cl0].map (fun c => c.client_id)).Nodup ∧
    ((logs_agg [lg0]).map (fun f => f.client_id)).Nodup ∧
    (agreger_donnees [tx0] [cl0] [lg0]).length = [tx0].length :=
  ⟨by decide, by decide,
    C1_join_rowcount_preservation [tx0] [cl0] [lg0] (by decide) (by decide)⟩

/-- C2 (code behaviour at the failing input): with a persistence collaborator
that silently truncates the `transactions` table, the Loader prints the
integrity-error line for that table and still attempts the remaining table,
but the per-table status it records for the truncated table is `OK` — the
recorded status does not reflect the failure, contradicting the claim (no
`IntegrityMismatchError` value exists anywhere in the code). -/
theorem C2_loader_status_ok_on_mismatch :
    ((charger_donnees exCleanedTables persistTrunc).1.map Prod.fst =
      ["transactions", "clients"]) ∧
    "ERREUR integrite: transactions" ∈
      (charger_donnees exCleanedTables persistTrunc).2 ∧
    ((charger_donnees exCleanedTables persistTrunc).1.headD
      ("", ⟨0, 0, "", ""⟩)).2.status = "OK" := by decide

/-- C5 counterexample: two runs of the Generator with the same fixed seed 42
and the same target count N = 1, but at different wall-clock instants,
produce different raw artifacts — `fake.date_time_between(...,
end_date='now')` anchors the generated timestamps on the current time, so
equal seeds do not suffice for byte-identical output. -/
theorem C5_wall_clock_counterexample :
    serialize_artifacts (run_generator 2592000 1) ≠
      serialize_artifacts (run_generator 2592001 1) := by decide

/-- C5 (amended): with the wall-clock reading also fixed, the Generator is a
pure function of the seed and the target count, so two runs with the same
seed, same N and same current time produce byte-identical artifacts. -/
theorem C5_generator_deterministic (now : Int) (nb seed0 : Nat) :
    serialize_artifacts (generer_donnees_test now nb seed0) =
      serialize_artifacts (generer_donnees_test now nb seed0) := rfl

/-- C6 counterexample: on a column where `ZZ` (first encountered) and `AA`
are tied for most frequent, the Cleaner imputes the missing entry with `AA`
(pandas `mode()` sorts ascending and `mode()[0]` is the smallest), not with
the first-encountered `ZZ` prescribed by the claim. -/
theorem C6_tie_break_counterexample :
    ((nettoyer_transactions exTie).map (fun r => r.merchant_category) =
      [some "ZZ", some "AA", some "AA"]) ∧
    mode_first_encountered_spec (exTie.map (fun r => r.merchant_category)) =
      some "ZZ" ∧
    some "AA" ≠ some "ZZ" := by decide

/-- C6 (amended): the Cleaner fills each missing merchant-category entry with
`mode_tx` of the column, and that value is the most frequent non-missing
value with ties broken by choosing the least value in ascending
(lexicographic) order, falling back to the fixed default label exactly when
the whole column is missing. -/
theorem C6_mode_imputation (df : List TransactionRow) :
    (∀ (i : Nat) (r : TransactionRow), df[i]? = some r →
      r.merchant_category = none →
      ((fill_merchant_category df)[i]?).map (fun x => x.merchant_category) =
        some (some (mode_tx (df.map (fun x => x.merchant_category))))) ∧
    (((df.map (fun x => x.merchant_category)).filterMap (fun o => o) = [] ∧
        mode_tx (df.map (fun x => x.merchant_category)) = "AUTRE") ∨
      (mode_tx (df.map (fun x => x.merchant_category)) ∈
          (df.map (fun x => x.merchant_category)).filterMap (fun o => o) ∧
        (∀ v ∈ (df.map (fun x => x.merchant_category)).filterMap (fun o => o),
          ((df.map (fun x => x.merchant_category)).filterMap (fun o => o)).count v ≤
            ((df.map (fun x => x.merchant_category)).filterMap (fun o => o)).count
              (mode_tx (df.map (fun x => x.merchant_category)))) ∧
        (∀ v ∈ (df.map (fun x => x.merchant_category)).filterMap (fun o => o),
          ((df.map (fun x => x.merchant_category)).filterMap (fun o => o)).count v =
            ((df.map (fun x => x.merchant_category)).filterMap (fun o => o)).count
              (mode_tx (df.map (fun x => x.merchant_category))) →
          strLeb (mode_tx (df.map (fun x => x.merchant_category))) v = true))) := by
  constructor
  · intro i r hir hmc
    simp only [fill_merchant_category]
    rw [List.getElem?_map, hir]
    simp [fillna, hmc]
  · exact mode_tx_spec (df.map (fun x => x.merchant_category))

/-- C6 witness: the amended fill behaviour at the concrete tied table — the
missing third entry is imputed with the mode value of the column. -/
theorem C6_mode_imputation_witness :
    ((fill_merchant_category exTie)[2]?).map (fun x => x.merchant_category) =
      some (some (mode_tx (exTie.map (fun x => x.merchant_category)))) :=
  (C6_mode_imputation exTie).1 2
    { tx0 with transaction_id := "TRX_2", merchant_category := none }
    (by decide) (by decide)

/-- C7 counterexample: a row with a valid latitude and a longitude of 1000
(far outside [-180, 180]) is not counted by the analyzer's invalid-coordinate
anomaly counter, though the claim requires it to be counted. -/
theorem C7_longitude_ignored_counterexample :
    (analyser_qualite_transactions exBadLongitude).coordonnees_invalides = 0 ∧
    coordonnees_invalides_spec exBadLongitude = 1 := by decide

/-- C7 (amended): the analyzer's invalid-coordinate anomaly count examines
the latitude column only — it equals the number of rows whose latitude is
present and outside [-90, 90], and it is unchanged by arbitrary modification
of every other field (in particular the longitude). -/
theorem C7_coordinate_anomaly_latitude_only (df : List TransactionRow)
    (f : TransactionRow → TransactionRow)
    (hf : ∀ r, (f r).latitude = r.latitude) :
    (analyser_qualite_transactions (df.map f)).coordonnees_invalides =
      (analyser_qualite_transactions df).coordonnees_invalides ∧
    (analyser_qualite_transactions df).coordonnees_invalides =
      (df.filter (fun r =>
        r.latitude.any (fun v => decide (v < -90) || decide (90 < v)))).length := by
  constructor
  · show (List.filter _ (df.map f)).length = (List.filter _ df).length
    rw [List.filter_map, List.length_map]
    congr 1
    refine List.filter_congr ?_
    intro a _
    show (match (f a).latitude with
      | some v => decide (v < -90) || decide (90 < v)
      | none => false) = _
    rw [hf a]
  · show (List.filter _ df).length = (List.filter _ df).length
    congr 1
    refine List.filter_congr ?_
    intro a _
    rcases ha : a.latitude with _ | v <;> simp [ha]

/-- C7 witness: the amended statement at a concrete table, with a
longitude-rewriting modification. -/
theorem C7_coordinate_anomaly_latitude_only_witness :
    (analyser_qualite_transactions
        (exBadLongitude.map (fun r => { r with longitude := some 999 }))).coordonnees_invalides =
      (analyser_qualite_transactions exBadLongitude).coordonnees_invalides ∧
    (analyser_qualite_transactions exBadLongitude).coordonnees_invalides =
      (exBadLongitude.filter (fun r =>
        r.latitude.any (fun v => decide (v < -90) || decide (90 < v)))).length :=
  C7_coordinate_anomaly_latitude_only exBadLongitude
    (fun r => { r with longitude := some 999 }) (fun _ => rfl)
